import Mathlib

/-!
# Verification of the interactive update menu (`update/menu.go`)

Shallow embedding of the menu core: the `ClearableLineWriter` output adapter,
the `menuItem` row model, `Menu.fromResults` row construction, and the
keypress-driven interactive loop of `Menu.Run` (toggle, cursor navigation,
confirm / abort / no-changes outcomes, result projection).

Go integers are modelled by `Nat` (all quantities involved — line counts,
terminal width, cursor, selectable count, verbosity — are non-negative in
every reachable program state; Go's non-negative `int` division and modulus
agree with `Nat` division and modulus).  Go strings are modelled by `String`,
with `len` rendered as `String.utf8ByteSize` (byte length).  Go's map
`map[flux.ResourceID][]ContainerUpdate` is modelled as a total function
`String → List ContainerUpdate` whose default value is the empty list,
matching Go's `append` on a missing key starting from `nil`.
-/

namespace FluxMenu

/-- Modelled from the spec: a single container update payload
(`ContainerUpdate` lives outside `src/`; the spec describes it as
`{itemName, currentValue, targetValue.tag}`).  The Go zero value has all
fields empty. -/
structure ContainerUpdate where
  container : String
  current : String
  targetTag : String
deriving DecidableEq, Repr, Inhabited

/-- Modelled from the spec: the coarse per-resource outcome classification
(`ControllerUpdateStatus` lives outside `src/`; the spec lists
`{Ignored, Skipped, Success/Updated, Failed}`).  Only the comparisons with
`Ignored` and `Skipped` matter to the menu code. -/
inductive ControllerUpdateStatus where
  | success
  | failed
  | skipped
  | ignored
deriving DecidableEq, Repr, Inhabited

/-- Modelled from the spec: the per-resource result record
`{status, error: optional string, perItemChanges: ordered list}`
(`ControllerResult` lives outside `src/`).  An absent error is the empty
string, as in the Go code's sentinel test `result.Error != ""`. -/
structure ControllerResult where
  status : ControllerUpdateStatus
  error : String
  perContainer : List ContainerUpdate
deriving DecidableEq, Repr, Inhabited

/-- Modelled from the spec: the input result set, an ordered mapping from
resource identifier to per-resource record (`Result` with its sorted
`ServiceIDs()` iteration lives outside `src/`).  We take the association
list in its (stable, deterministic) iteration order; Go map keys are
distinct, which theorems needing it state as a `Nodup` hypothesis.
`flux.MustParseResourceID` is modelled as the identity on the key string. -/
abbrev Result := List (String × ControllerResult)

/-- `menuItem` from `menu.go`: one row of the menu.  The Go zero value of
`update` (all-empty `ContainerUpdate`) marks an informational row. -/
structure menuItem where
  id : String
  status : ControllerUpdateStatus
  error : String
  update : ContainerUpdate
  checked : Bool
deriving DecidableEq, Repr, Inhabited

/-- `menuItem.checkable`: a row is selectable iff its update names a
container (`i.update.Container != ""`). -/
def menuItem.checkable (i : menuItem) : Bool :=
  i.update.container != ""

/-- `Menu` from `menu.go`, minus the output writer (pure rendering state,
irrelevant to the state machine): row list, selectable count, cursor. -/
structure Menu where
  items : List menuItem
  selectable : Nat
  cursor : Nat
deriving DecidableEq, Repr, Inhabited

/-- `Menu.AddItem`: if the item is checkable, mark it checked and bump the
selectable count; in all cases append it to the row list. -/
def Menu.AddItem (m : Menu) (mi : menuItem) : Menu :=
  if mi.checkable then
    { m with items := m.items ++ [{ mi with checked := true }],
             selectable := m.selectable + 1 }
  else
    { m with items := m.items ++ [mi] }

/-- The verbosity filter at the top of `Menu.fromResults`'s loop body:
`Ignored` is dropped below verbosity 2, `Skipped` below verbosity 1
(the Go `switch` with `continue`). -/
def keepResult (verbosity : Nat) (result : ControllerResult) : Bool :=
  !((result.status == ControllerUpdateStatus.ignored && decide (verbosity < 2)) ||
    (result.status == ControllerUpdateStatus.skipped && decide (verbosity < 1)))

/-- The loop body of `Menu.fromResults` for one result-set entry: for a
kept resource add an error row when `Error != ""`, one row per
`PerContainer` entry, and a placeholder row when there is neither error
nor containers. -/
def Menu.addResult (m : Menu) (resourceID : String) (result : ControllerResult)
    (verbosity : Nat) : Menu :=
  if keepResult verbosity result then
    let m := if result.error != "" then
      m.AddItem { id := resourceID, status := result.status,
                  error := result.error, update := default, checked := false }
    else m
    let m := result.perContainer.foldl (fun m upd =>
      m.AddItem { id := resourceID, status := result.status,
                  error := "", update := upd, checked := false }) m
    if result.error == "" && result.perContainer.length == 0 then
      m.AddItem { id := resourceID, status := result.status,
                  error := "", update := default, checked := false }
    else m
  else m

/-- `Menu.fromResults`: iterate the result set in its `ServiceIDs()` order,
running the loop body `addResult` on every entry. -/
def Menu.fromResults (m : Menu) (results : Result) (verbosity : Nat) : Menu :=
  results.foldl (fun m idr => m.addResult idr.1 idr.2 verbosity) m

/-- `NewMenu`: a fresh menu (empty rows, zero selectable, cursor 0)
populated by `fromResults`. -/
def NewMenu (results : Result) (verbosity : Nat) : Menu :=
  Menu.fromResults { items := [], selectable := 0, cursor := 0 } results verbosity

/-- `Menu.toggleSelected`:
`m.items[m.cursor].checked = !m.items[m.cursor].checked`.
The index is `m.cursor` into the FULL item list (Go panics when it is out
of range; the reachable-state invariant keeps it in range, and `List.set`
is a no-op there).  The trailing `printInteractive()` call only renders. -/
def Menu.toggleSelected (m : Menu) : Menu :=
  let it := m.items.getD m.cursor default
  { m with items := m.items.set m.cursor { it with checked := !it.checked } }

/-- `Menu.cursorDown`: `m.cursor = (m.cursor + 1) % m.selectable`. -/
def Menu.cursorDown (m : Menu) : Menu :=
  { m with cursor := (m.cursor + 1) % m.selectable }

/-- `Menu.cursorUp`: `m.cursor = (m.cursor + m.selectable - 1) % m.selectable`. -/
def Menu.cursorUp (m : Menu) : Menu :=
  { m with cursor := (m.cursor + m.selectable - 1) % m.selectable }

/-- One decoded keypress from `getChar()`: an ascii byte and a platform
key code. -/
structure KeyEvent where
  ascii : Nat
  keyCode : Nat
deriving DecidableEq, Repr, Inhabited

/-- The ways `Menu.Run` can leave its loop (or refuse to enter it). -/
inductive RunOutcome where
  | noChanges
  | aborted
  | confirmed
  | inputFailure
deriving DecidableEq, Repr, Inhabited

/-- The key dispatch of `Menu.Run`'s loop, driven by a finite list of
keypresses; an exhausted list models `getChar()` returning an error.
Returns the final menu state, the outcome, and the unread keypresses.
Ascii codes: 3 Ctrl-C, 27 Escape, 113 'q', 32 space, 13 Enter, 9 Tab,
106 'j', 107 'k'; key codes 40 down-arrow, 38 up-arrow. -/
def Menu.runFrom (m : Menu) : List KeyEvent → Menu × RunOutcome × List KeyEvent
  | [] => (m, RunOutcome.inputFailure, [])
  | k :: rest =>
    if k.ascii == 3 || k.ascii == 27 || k.ascii == 113 then
      (m, RunOutcome.aborted, rest)
    else if k.ascii == 32 then
      Menu.runFrom m.toggleSelected rest
    else if k.ascii == 13 then
      (m, RunOutcome.confirmed, rest)
    else if k.ascii == 9 || k.ascii == 106 then
      Menu.runFrom m.cursorDown rest
    else if k.ascii == 107 then
      Menu.runFrom m.cursorUp rest
    else if k.keyCode == 40 then
      Menu.runFrom m.cursorDown rest
    else if k.keyCode == 38 then
      Menu.runFrom m.cursorUp rest
    else
      Menu.runFrom m rest

/-- The result projection performed in `Run`'s Enter case:
`for _, item := range m.items { if item.checked { specs[item.id] =
append(specs[item.id], item.update) } }`, over an initially empty map. -/
def specsStep (specs : String → List ContainerUpdate) (item : menuItem) :
    String → List ContainerUpdate :=
  if item.checked then
    fun id => if id == item.id then specs id ++ [item.update] else specs id
  else specs

/-- The mapping built by `Run` on confirmation. -/
def Menu.projectSpecs (m : Menu) : String → List ContainerUpdate :=
  m.items.foldl specsStep (fun _ => [])

/-- `Menu.Run`: refuse with the `"No changes found."` condition (and the
still-empty specs map) when `selectable == 0`, before reading any key;
otherwise run the loop, and on confirmation return the projected specs. -/
def Menu.Run (m : Menu) (keys : List KeyEvent) :
    (String → List ContainerUpdate) × RunOutcome × List KeyEvent :=
  if m.selectable == 0 then
    (fun _ => [], RunOutcome.noChanges, keys)
  else
    let r := m.runFrom keys
    match r.2.1 with
    | RunOutcome.confirmed => (r.1.projectSpecs, RunOutcome.confirmed, r.2.2)
    | o => (fun _ => [], o, r.2.2)

/-- `ClearableLineWriter` from `menu.go`, minus the wrapped writer: the
tracked physical line count and the terminal width (`uint16`). -/
structure ClearableLineWriter where
  lines : Nat
  width : Nat
deriving DecidableEq, Repr, Inhabited

/-- `ClearableLineWriter.Writeln`: `line += "\n"` then
`c.lines += (len(line)-1)/int(c.width) + 1` (Go `len` is the byte length). -/
def ClearableLineWriter.Writeln (c : ClearableLineWriter) (line : String) :
    ClearableLineWriter :=
  let line := line ++ "\n"
  { c with lines := c.lines + ((line.utf8ByteSize - 1) / c.width + 1) }

/-- `ClearableLineWriter.Clear`: no-op when nothing was written, otherwise
(after emitting the cursor-up escape) reset the tracked count to zero. -/
def ClearableLineWriter.Clear (c : ClearableLineWriter) : ClearableLineWriter :=
  if c.lines == 0 then c else { c with lines := 0 }

/-! ### Specification-side decomposition of row construction

`AddItem` marks a checkable item checked; `markItem` is that marking.
`rawRowsFor` lists, for one kept resource, the items `addResult` passes to
`AddItem` in order; `rowsForResult` is the same list after marking, i.e.
the rows a resource contributes to the finished menu. -/

/-- The marking `AddItem` applies to the item it appends. -/
def markItem (mi : menuItem) : menuItem :=
  if mi.checkable then { mi with checked := true } else mi

/-- Fold `AddItem` over a list of items. -/
def Menu.addItems (m : Menu) (l : List menuItem) : Menu :=
  l.foldl Menu.AddItem m

/-- The items `addResult` passes to `AddItem` for one entry, in order:
the error row (when `Error != ""`), one row per container update, and the
placeholder row (when there is neither error nor containers); nothing for
a resource dropped by the verbosity filter. -/
def rawRowsFor (verbosity : Nat) (resourceID : String) (result : ControllerResult) :
    List menuItem :=
  if keepResult verbosity result then
    (if result.error != "" then
      [{ id := resourceID, status := result.status, error := result.error,
         update := default, checked := false }]
     else [])
    ++ result.perContainer.map (fun upd =>
        { id := resourceID, status := result.status, error := "",
          update := upd, checked := false })
    ++ (if result.error == "" && result.perContainer.length == 0 then
        [{ id := resourceID, status := result.status, error := "",
           update := default, checked := false }]
       else [])
  else []

/-- The rows one result-set entry contributes to the finished menu. -/
def rowsForResult (verbosity : Nat) (resourceID : String) (result : ControllerResult) :
    List menuItem :=
  (rawRowsFor verbosity resourceID result).map markItem

/-- A result set exhibiting the toggle-index defect: resource `"a"` has an
error and no containers (one informational row), resource `"b"` one
container update (one selectable row).  The menu rows are
`[informational "a", selectable "b"]` with `selectable = 1`, `cursor = 0`. -/
def exResultsC1 : Result :=
  [("a", ⟨ControllerUpdateStatus.failed, "boom", []⟩),
   ("b", ⟨ControllerUpdateStatus.success, "",
      [⟨"app", "1.0", "2.0"⟩]⟩)]

/-- The same shape as `exResultsC1`, used to follow the defect through the
confirm-time result projection. -/
def exResultsC2 : Result :=
  [("a", ⟨ControllerUpdateStatus.failed, "boom", []⟩),
   ("b", ⟨ControllerUpdateStatus.success, "",
      [⟨"app", "1.0", "2.0"⟩]⟩)]

/-- One resource with both an error and one container update: it yields
one informational row next to its selectable row. -/
def exResultsC3 : Result :=
  [("a", ⟨ControllerUpdateStatus.failed, "boom",
      [⟨"app", "1.0", "2.0"⟩]⟩)]

/-- A small concrete result set used by witnesses: one resource with two
container updates. -/
def wResults : Result :=
  [("default:deployment/helloworld", ⟨ControllerUpdateStatus.success, "",
      [⟨"app", "1.0", "2.0"⟩, ⟨"sidecar", "1.0", "1.1"⟩]⟩)]

/-- The menu built from `wResults`: two selectable rows, cursor 0. -/
def wMenu : Menu := NewMenu wResults 0

/-- The in-bounds invariant maintained by the interactive loop: the cursor
is a valid index into the selectable subset, and the selectable count never
exceeds the number of rows (so `items[cursor]` is in bounds). -/
def MenuInv (m : Menu) : Prop :=
  m.cursor < m.selectable ∧ m.selectable ≤ m.items.length

/-! ### Lemmas: row construction -/

theorem checkable_markItem (mi : menuItem) : (markItem mi).checkable = mi.checkable := by
  unfold markItem
  split <;> rfl

theorem id_markItem (mi : menuItem) : (markItem mi).id = mi.id := by
  unfold markItem
  split <;> rfl

theorem AddItem_items (m : Menu) (mi : menuItem) :
    (m.AddItem mi).items = m.items ++ [markItem mi] := by
  unfold Menu.AddItem markItem
  split <;> rfl

theorem AddItem_selectable (m : Menu) (mi : menuItem) :
    (m.AddItem mi).selectable = m.selectable + (if mi.checkable then 1 else 0) := by
  unfold Menu.AddItem
  split <;> simp_all

theorem AddItem_cursor (m : Menu) (mi : menuItem) :
    (m.AddItem mi).cursor = m.cursor := by
  unfold Menu.AddItem
  split <;> rfl

theorem addItems_cons (m : Menu) (x : menuItem) (xs : List menuItem) :
    m.addItems (x :: xs) = (m.AddItem x).addItems xs := rfl

theorem addItems_append (m : Menu) (l₁ l₂ : List menuItem) :
    m.addItems (l₁ ++ l₂) = (m.addItems l₁).addItems l₂ := by
  unfold Menu.addItems
  exact List.foldl_append _ _ _ _

theorem addItems_items (m : Menu) (l : List menuItem) :
    (m.addItems l).items = m.items ++ l.map markItem := by
  induction l generalizing m with
  | nil => simp [Menu.addItems]
  | cons x xs ih =>
      rw [addItems_cons, ih, AddItem_items]
      simp

theorem addItems_selectable (m : Menu) (l : List menuItem) :
    (m.addItems l).selectable = m.selectable + (l.countP fun i => i.checkable) := by
  induction l generalizing m with
  | nil => simp [Menu.addItems]
  | cons x xs ih =>
      rw [addItems_cons, ih, AddItem_selectable, List.countP_cons]
      by_cases h : x.checkable <;> simp [h] <;> omega

theorem addItems_cursor (m : Menu) (l : List menuItem) :
    (m.addItems l).cursor = m.cursor := by
  induction l generalizing m with
  | nil => rfl
  | cons x xs ih => rw [addItems_cons, ih, AddItem_cursor]

theorem addResult_eq (m : Menu) (rid : String) (r : ControllerResult) (v : Nat) :
    m.addResult rid r v = m.addItems (rawRowsFor v rid r) := by
  unfold Menu.addResult rawRowsFor
  by_cases hk : keepResult v r
  · simp only [hk, if_true]
    rw [addItems_append, addItems_append]
    by_cases he : (r.error != "") = true <;>
      by_cases hp : (r.error == "" && r.perContainer.length == 0) = true <;>
        simp [he, hp, Menu.addItems, List.foldl_map]
  · simp [hk, Menu.addItems]

theorem fromResults_eq (results : Result) (v : Nat) (m : Menu) :
    Menu.fromResults m results v =
      m.addItems (results.flatMap fun p => rawRowsFor v p.1 p.2) := by
  induction results generalizing m with
  | nil => rfl
  | cons p ps ih =>
      show Menu.fromResults (m.addResult p.1 p.2 v) ps v = _
      rw [ih, addResult_eq, List.flatMap_cons, addItems_append]

theorem NewMenu_items (results : Result) (v : Nat) :
    (NewMenu results v).items = results.flatMap fun p => rowsForResult v p.1 p.2 := by
  unfold NewMenu
  rw [fromResults_eq, addItems_items]
  simp [List.map_flatMap, rowsForResult]

theorem NewMenu_selectable_eq (results : Result) (v : Nat) :
    (NewMenu results v).selectable =
      ((results.flatMap fun p => rawRowsFor v p.1 p.2).countP fun i => i.checkable) := by
  unfold NewMenu
  rw [fromResults_eq, addItems_selectable]
  simp

theorem NewMenu_selectable_countP (results : Result) (v : Nat) :
    (NewMenu results v).selectable =
      ((NewMenu results v).items.countP fun i => i.checkable) := by
  rw [NewMenu_selectable_eq, NewMenu_items]
  simp only [rowsForResult, List.countP_flatMap]
  congr 1
  apply List.map_congr_left
  intro p _
  simp [Function.comp_def, List.countP_map, checkable_markItem]

theorem NewMenu_cursor (results : Result) (v : Nat) :
    (NewMenu results v).cursor = 0 := by
  unfold NewMenu
  rw [fromResults_eq, addItems_cursor]

theorem NewMenu_selectable_le (results : Result) (v : Nat) :
    (NewMenu results v).selectable ≤ (NewMenu results v).items.length := by
  rw [NewMenu_selectable_countP]
  exact List.countP_le_length _

/-! ### Lemmas: cursor navigation and the loop invariant -/

theorem cursorDown_cursor (m : Menu) :
    m.cursorDown.cursor = (m.cursor + 1) % m.selectable := rfl

theorem cursorDown_selectable (m : Menu) : m.cursorDown.selectable = m.selectable := rfl

theorem cursorDown_items (m : Menu) : m.cursorDown.items = m.items := rfl

theorem cursorUp_cursor (m : Menu) :
    m.cursorUp.cursor = (m.cursor + m.selectable - 1) % m.selectable := rfl

theorem cursorUp_selectable (m : Menu) : m.cursorUp.selectable = m.selectable := rfl

theorem cursorUp_items (m : Menu) : m.cursorUp.items = m.items := rfl

theorem toggleSelected_cursor (m : Menu) : m.toggleSelected.cursor = m.cursor := rfl

theorem toggleSelected_selectable (m : Menu) :
    m.toggleSelected.selectable = m.selectable := rfl

theorem toggleSelected_length (m : Menu) :
    m.toggleSelected.items.length = m.items.length := by
  simp [Menu.toggleSelected]

theorem iterate_cursorDown (m : Menu) (h : m.cursor < m.selectable) (k : Nat) :
    (Menu.cursorDown^[k] m).cursor = (m.cursor + k) % m.selectable ∧
    (Menu.cursorDown^[k] m).selectable = m.selectable := by
  induction k with
  | zero => exact ⟨by simpa using (Nat.mod_eq_of_lt h).symm, rfl⟩
  | succ k ih =>
      obtain ⟨hc, hs⟩ := ih
      rw [Function.iterate_succ_apply']
      refine ⟨?_, by rw [cursorDown_selectable, hs]⟩
      rw [cursorDown_cursor, hc, hs, Nat.mod_add_mod]
      congr 1

theorem iterate_cursorUp (m : Menu) (h : m.cursor < m.selectable) (k : Nat) :
    (Menu.cursorUp^[k] m).cursor = (m.cursor + k * (m.selectable - 1)) % m.selectable ∧
    (Menu.cursorUp^[k] m).selectable = m.selectable := by
  induction k with
  | zero => exact ⟨by simpa using (Nat.mod_eq_of_lt h).symm, rfl⟩
  | succ k ih =>
      obtain ⟨hc, hs⟩ := ih
      have hn : 0 < m.selectable := Nat.lt_of_le_of_lt (Nat.zero_le _) h
      rw [Function.iterate_succ_apply']
      refine ⟨?_, by rw [cursorUp_selectable, hs]⟩
      rw [cursorUp_cursor, hc, hs]
      have h1 : (m.cursor + k * (m.selectable - 1)) % m.selectable + m.selectable - 1
          = (m.cursor + k * (m.selectable - 1)) % m.selectable + (m.selectable - 1) := by
        omega
      rw [h1, Nat.mod_add_mod]
      congr 1
      generalize m.selectable - 1 = a
      ring

theorem toggleSelected_inv (m : Menu) (h : MenuInv m) : MenuInv m.toggleSelected := by
  obtain ⟨h1, h2⟩ := h
  refine ⟨h1, ?_⟩
  rw [toggleSelected_selectable, toggleSelected_length]
  exact h2

theorem cursorDown_inv (m : Menu) (h : MenuInv m) : MenuInv m.cursorDown := by
  obtain ⟨h1, h2⟩ := h
  exact ⟨Nat.mod_lt _ (Nat.lt_of_le_of_lt (Nat.zero_le _) h1), h2⟩

theorem cursorUp_inv (m : Menu) (h : MenuInv m) : MenuInv m.cursorUp := by
  obtain ⟨h1, h2⟩ := h
  exact ⟨Nat.mod_lt _ (Nat.lt_of_le_of_lt (Nat.zero_le _) h1), h2⟩

theorem runFrom_inv (keys : List KeyEvent) (m : Menu) (h : MenuInv m) :
    MenuInv (m.runFrom keys).1 := by
  induction keys generalizing m with
  | nil => exact h
  | cons k rest ih =>
      rw [Menu.runFrom]
      split_ifs
      · exact h
      · exact ih _ (toggleSelected_inv m h)
      · exact h
      · exact ih _ (cursorDown_inv m h)
      · exact ih _ (cursorUp_inv m h)
      · exact ih _ (cursorDown_inv m h)
      · exact ih _ (cursorUp_inv m h)
      · exact ih _ h

/-! ### Lemmas: result projection -/

theorem foldl_specsStep (l : List menuItem) (acc : String → List ContainerUpdate)
    (s : String) :
    l.foldl specsStep acc s =
      acc s ++ ((l.filter fun i => i.checked && (s == i.id)).map fun i => i.update) := by
  induction l generalizing acc with
  | nil => simp
  | cons x xs ih =>
      rw [List.foldl_cons, ih]
      by_cases hc : x.checked = true <;> by_cases hid : (s == x.id) = true <;>
        simp [specsStep, hc, hid, List.filter_cons]

theorem projectSpecs_eq (m : Menu) (s : String) :
    m.projectSpecs s =
      (m.items.filter fun i => i.checked && (s == i.id)).map fun i => i.update := by
  unfold Menu.projectSpecs
  rw [foldl_specsStep]
  simp

/-! ### Lemmas: byte length of written lines -/

theorem utf8Size_go_append (l₁ l₂ : List Char) :
    String.utf8ByteSize.go (l₁ ++ l₂) =
      String.utf8ByteSize.go l₁ + String.utf8ByteSize.go l₂ := by
  induction l₁ with
  | nil => simp [String.utf8ByteSize.go]
  | cons c cs ih =>
      show String.utf8ByteSize.go (c :: (cs ++ l₂)) = _
      rw [show String.utf8ByteSize.go (c :: (cs ++ l₂)) =
            String.utf8ByteSize.go (cs ++ l₂) + c.utf8Size from rfl,
        show String.utf8ByteSize.go (c :: cs) =
            String.utf8ByteSize.go cs + c.utf8Size from rfl,
        ih]
      omega

theorem utf8ByteSize_append (s t : String) :
    (s ++ t).utf8ByteSize = s.utf8ByteSize + t.utf8ByteSize := by
  cases s with
  | mk d₁ =>
    cases t with
    | mk d₂ =>
      show String.utf8ByteSize ⟨d₁ ++ d₂⟩ = _
      simp [String.utf8ByteSize, utf8Size_go_append]

theorem utf8ByteSize_newline : ("\n" : String).utf8ByteSize = 1 := rfl

/-! ### Lemmas: verbosity filter -/

theorem keepResult_mono (v w : Nat) (hvw : v ≤ w) (r : ControllerResult)
    (hk : keepResult v r = true) : keepResult w r = true := by
  unfold keepResult at hk ⊢
  cases hst : r.status <;> simp_all <;> omega

theorem rawRowsFor_mono (v w : Nat) (hvw : v ≤ w) (rid : String) (r : ControllerResult) :
    (rawRowsFor v rid r).Sublist (rawRowsFor w rid r) := by
  unfold rawRowsFor
  by_cases hk : keepResult v r = true
  · rw [if_pos hk, if_pos (keepResult_mono v w hvw r hk)]
  · rw [if_neg hk]
    exact List.nil_sublist _

/-! ### Lemmas: which rows a resource contributes -/

theorem update_markItem (mi : menuItem) : (markItem mi).update = mi.update := by
  unfold markItem
  split <;> rfl

theorem mem_rawRowsFor (v : Nat) (rid : String) (r : ControllerResult) (i : menuItem)
    (hi : i ∈ rawRowsFor v rid r) : i.id = rid ∧ i.checked = false := by
  unfold rawRowsFor at hi
  split at hi
  · simp only [List.mem_append, List.mem_map] at hi
    rcases hi with (hA | ⟨u, _, rfl⟩) | hC
    · split at hA
      · rw [List.mem_singleton] at hA
        subst hA
        exact ⟨rfl, rfl⟩
      · cases hA
    · exact ⟨rfl, rfl⟩
    · split at hC
      · rw [List.mem_singleton] at hC
        subst hC
        exact ⟨rfl, rfl⟩
      · cases hC
  · cases hi

theorem mem_rowsForResult (v : Nat) (rid : String) (r : ControllerResult) (i : menuItem)
    (hi : i ∈ rowsForResult v rid r) : i.id = rid := by
  unfold rowsForResult at hi
  rcases List.mem_map.1 hi with ⟨j, hj, rfl⟩
  rw [id_markItem]
  exact (mem_rawRowsFor v rid r j hj).1

theorem filter_rows_ne (v : Nat) (s : String) (q : String × ControllerResult)
    (hne : q.1 ≠ s) :
    (rowsForResult v q.1 q.2).filter (fun x => x.checked && (s == x.id)) = [] := by
  rw [List.filter_eq_nil_iff]
  intro x hx
  have hid := mem_rowsForResult v q.1 q.2 x hx
  intro hcontra
  rw [Bool.and_eq_true, beq_iff_eq] at hcontra
  exact hne (Eq.symm (hcontra.2.trans hid))

theorem flatMap_filter_eq_nil (v : Nat) (s : String) (qs : Result)
    (h : ∀ q ∈ qs, q.1 ≠ s) :
    (qs.flatMap fun p =>
      (rowsForResult v p.1 p.2).filter fun x => x.checked && (s == x.id)) = [] := by
  induction qs with
  | nil => rfl
  | cons q qs ih =>
      rw [List.flatMap_cons, filter_rows_ne v s q (h q (List.mem_cons_self q qs)),
        List.nil_append]
      exact ih fun p hp => h p (List.mem_cons_of_mem q hp)

theorem filter_flatMap_unique (v : Nat) (s : String) (r : ControllerResult)
    (results : Result) (hnd : (results.map Prod.fst).Nodup) (hmem : (s, r) ∈ results) :
    (results.flatMap fun p =>
        (rowsForResult v p.1 p.2).filter fun x => x.checked && (s == x.id))
      = (rowsForResult v s r).filter fun x => x.checked && (s == x.id) := by
  induction results with
  | nil => cases hmem
  | cons q qs ih =>
      rw [List.flatMap_cons]
      rw [List.map_cons, List.nodup_cons] at hnd
      rcases List.mem_cons.1 hmem with heq | hmem'
      · subst heq
        have hnil := flatMap_filter_eq_nil v s qs (by
          intro p hp hps
          apply hnd.1
          show s ∈ qs.map Prod.fst
          rw [← hps]
          exact List.mem_map_of_mem Prod.fst hp)
        rw [hnil, List.append_nil]
      · have hqs : q.1 ≠ s := by
          intro hq
          apply hnd.1
          rw [hq]
          exact List.mem_map_of_mem Prod.fst hmem'
        rw [filter_rows_ne v s q hqs, List.nil_append]
        exact ih hnd.2 hmem'

theorem filter_checked_payload_rows (rid : String) (st : ControllerUpdateStatus)
    (pc : List ContainerUpdate) :
    ((pc.map fun upd => markItem
        { id := rid, status := st, error := "", update := upd, checked := false }).filter
          (fun x => x.checked && (rid == x.id))).map (fun i => i.update)
      = pc.filter fun u => u.container != "" := by
  induction pc with
  | nil => rfl
  | cons u us ih =>
      have hmark : markItem { id := rid, status := st, error := "", update := u, checked := false }
          = { id := rid, status := st, error := "", update := u,
              checked := u.container != "" } := by
        unfold markItem menuItem.checkable
        by_cases hu : (u.container != "") = true <;> simp [hu]
      rw [List.map_cons, hmark, List.filter_cons, List.filter_cons]
      by_cases hu : (u.container != "") = true <;>
        simp [hu, ih]

theorem filter_checked_rowsForResult (v : Nat) (rid : String) (r : ControllerResult)
    (hk : keepResult v r = true) :
    ((rowsForResult v rid r).filter (fun x => x.checked && (rid == x.id))).map
        (fun i => i.update)
      = r.perContainer.filter fun u => u.container != "" := by
  unfold rowsForResult rawRowsFor
  rw [if_pos hk]
  rw [List.map_append, List.map_append, List.filter_append, List.filter_append,
      List.map_append, List.map_append]
  have hdef : ((default : ContainerUpdate).container != "") = false := rfl
  have hA : (List.map (fun i => i.update) (List.filter (fun x => x.checked && (rid == x.id))
      (List.map markItem (if (r.error != "") = true then
        [{ id := rid, status := r.status, error := r.error, update := default, checked := false }]
       else [])))) = [] := by
    by_cases he : (r.error != "") = true <;>
      simp [he, markItem, menuItem.checkable, hdef]
  have hC : (List.map (fun i => i.update) (List.filter (fun x => x.checked && (rid == x.id))
      (List.map markItem (if (r.error == "" && r.perContainer.length == 0) = true then
        [{ id := rid, status := r.status, error := "", update := default, checked := false }]
       else [])))) = [] := by
    by_cases hp : (r.error == "" && r.perContainer.length == 0) = true <;>
      simp [hp, markItem, menuItem.checkable, hdef]
  rw [hA, hC, List.nil_append, List.append_nil]
  rw [List.map_map]
  exact filter_checked_payload_rows rid r.status r.perContainer

/-- Confirming immediately: with a non-empty selectable set, `Run` on the
single Enter keypress exits through the confirm case and returns the
projection of the (unchanged) initial menu. -/
theorem run_enter (m : Menu) (h : ¬ m.selectable = 0) :
    m.Run [⟨13, 0⟩] = (m.projectSpecs, RunOutcome.confirmed, []) := by
  unfold Menu.Run Menu.runFrom
  simp [h]

theorem markItem_info (rid : String) (st : ControllerUpdateStatus) (e : String) (b : Bool) :
    markItem { id := rid, status := st, error := e, update := default, checked := b }
      = { id := rid, status := st, error := e, update := default, checked := b } := rfl

theorem info_not_checkable (rid : String) (st : ControllerUpdateStatus) (e : String)
    (b : Bool) :
    ({ id := rid, status := st, error := e, update := default,
        checked := b } : menuItem).checkable = false := rfl

theorem countP_checkable_payload_rows (rid : String) (st : ControllerUpdateStatus)
    (pc : List ContainerUpdate) :
    ((pc.map fun upd => markItem
        { id := rid, status := st, error := "", update := upd, checked := false }).countP
          fun i => i.checkable)
      = pc.countP fun u => u.container != "" := by
  induction pc with
  | nil => rfl
  | cons u us ih =>
      have hmark : markItem { id := rid, status := st, error := "", update := u, checked := false }
          = { id := rid, status := st, error := "", update := u,
              checked := u.container != "" } := by
        unfold markItem menuItem.checkable
        by_cases hu : (u.container != "") = true <;> simp [hu]
      rw [List.map_cons, hmark, List.countP_cons, List.countP_cons, ih]
      by_cases hu : (u.container != "") = true <;> simp [hu, menuItem.checkable]

theorem countP_info_payload_rows (rid : String) (st : ControllerUpdateStatus)
    (pc : List ContainerUpdate) :
    ((pc.map fun upd => markItem
        { id := rid, status := st, error := "", update := upd, checked := false }).countP
          fun i => !i.checkable)
      = pc.countP fun u => !(u.container != "") := by
  induction pc with
  | nil => rfl
  | cons u us ih =>
      have hmark : markItem { id := rid, status := st, error := "", update := u, checked := false }
          = { id := rid, status := st, error := "", update := u,
              checked := u.container != "" } := by
        unfold markItem menuItem.checkable
        by_cases hu : (u.container != "") = true <;> simp [hu]
      rw [List.map_cons, hmark, List.countP_cons, List.countP_cons, ih]
      by_cases hu : (u.container != "") = true <;> simp [hu, menuItem.checkable]

theorem rowsFor_checkable_count (v : Nat) (rid : String) (r : ControllerResult)
    (hkeep : keepResult v r = true)
    (hcont : ∀ u ∈ r.perContainer, u.container ≠ "")
    (hN : 0 < r.perContainer.length) :
    ((rowsForResult v rid r).countP fun i => i.checkable) = r.perContainer.length := by
  have hp : ¬ ((r.error == "" && r.perContainer.length == 0) = true) := by
    intro hcontra
    rw [Bool.and_eq_true] at hcontra
    have h2 : r.perContainer.length = 0 := by simpa using hcontra.2
    omega
  have hB : ((r.perContainer.map fun upd => markItem
      { id := rid, status := r.status, error := "", update := upd, checked := false }).countP
        fun i => i.checkable) = r.perContainer.length := by
    rw [countP_checkable_payload_rows, List.countP_eq_length]
    intro u hu
    simpa using hcont u hu
  unfold rowsForResult rawRowsFor
  rw [if_pos hkeep, if_neg hp, List.append_nil, List.map_append, List.countP_append]
  rw [List.map_map]
  by_cases he : (r.error != "") = true
  · rw [if_pos he]
    simp only [List.map_cons, List.map_nil, markItem_info, List.countP_cons, List.countP_nil,
      info_not_checkable, Function.comp_def]
    simp only [Bool.false_eq_true, if_false, Nat.add_zero, Nat.zero_add]
    exact hB
  · rw [if_neg he]
    simp only [List.map_nil, List.countP_nil, Nat.zero_add, Function.comp_def]
    exact hB

theorem rowsFor_info_count (v : Nat) (rid : String) (r : ControllerResult)
    (hkeep : keepResult v r = true)
    (hcont : ∀ u ∈ r.perContainer, u.container ≠ "")
    (hN : 0 < r.perContainer.length) :
    ((rowsForResult v rid r).countP fun i => !i.checkable)
      = (if r.error = "" then 0 else 1) := by
  have hp : ¬ ((r.error == "" && r.perContainer.length == 0) = true) := by
    intro hcontra
    rw [Bool.and_eq_true] at hcontra
    have h2 : r.perContainer.length = 0 := by simpa using hcontra.2
    omega
  have hB : ((r.perContainer.map fun upd => markItem
      { id := rid, status := r.status, error := "", update := upd, checked := false }).countP
        fun i => !i.checkable) = 0 := by
    rw [countP_info_payload_rows, List.countP_eq_zero]
    intro u hu
    simpa using hcont u hu
  unfold rowsForResult rawRowsFor
  rw [if_pos hkeep, if_neg hp, List.append_nil, List.map_append, List.countP_append]
  rw [List.map_map]
  by_cases he : (r.error != "") = true
  · rw [if_pos he]
    simp only [List.map_cons, List.map_nil, markItem_info, List.countP_cons, List.countP_nil,
      info_not_checkable, Function.comp_def]
    have herr : ¬ (r.error = "") := by simpa using he
    rw [if_neg herr]
    simp only [Bool.not_false, if_true, Nat.zero_add]
    rw [hB]
  · rw [if_neg he]
    have herr : r.error = "" := by simpa using he
    rw [if_pos herr]
    simp only [List.map_nil, List.countP_nil, Nat.zero_add, Function.comp_def]
    rw [hB]

/-! ### The claims -/

/-- C1: the claim says the space key flips the `selected` flag of the row
at the cursor's index into the SELECTABLE subset and never changes an
informational row.  The code indexes the full row list with the cursor
(`m.items[m.cursor]`), while rendering counts the cursor against selectable
rows only.  In the menu built from `exResultsC1` the cursor (0) denotes the
only selectable row — row 1, resource "b" — yet `toggleSelected` flips the
informational row 0 (resource "a", no payload, rendered without a checkbox)
and leaves row 1 unchanged: the claim fails on the code. -/
theorem C1_toggle_wrong_row :
    (NewMenu exResultsC1 0).selectable = 1 ∧
    (NewMenu exResultsC1 0).cursor = 0 ∧
    ((NewMenu exResultsC1 0).items.getD 0 default).checkable = false ∧
    ((NewMenu exResultsC1 0).items.getD 1 default).checkable = true ∧
    ((NewMenu exResultsC1 0).items.getD 0 default).checked = false ∧
    ((NewMenu exResultsC1 0).toggleSelected.items.getD 0 default).checked = true ∧
    (NewMenu exResultsC1 0).toggleSelected.items.getD 1 default
      = (NewMenu exResultsC1 0).items.getD 1 default := by
  decide

/-- C2: the claim says the mapping returned on confirmation contains
payloads only from selected payload rows, for every reachable state.
Through the toggle defect (see `C1_toggle_wrong_row`) the reachable state
after one space keypress has the informational row of resource "a" checked,
and confirming then emits that row's zero-value update under key "a": an
informational row contributes to the mapping, so the claim fails on the
code. -/
theorem C2_confirm_includes_informational :
    ((NewMenu exResultsC2 0).items.getD 0 default).checkable = false ∧
    ((NewMenu exResultsC2 0).items.getD 0 default).id = "a" ∧
    (((NewMenu exResultsC2 0).Run [⟨32, 0⟩, ⟨13, 0⟩]).2.1 = RunOutcome.confirmed) ∧
    (((NewMenu exResultsC2 0).Run [⟨32, 0⟩, ⟨13, 0⟩]).1 "a"
      = [{ container := "", current := "", targetTag := "" }]) := by
  decide

/-- C3 counterexample: resource "a" of `exResultsC3` has exactly one
payload (N = 1), yet row construction at verbosity 2 produces one
informational row for it (the error row) next to its one selectable row —
not the zero informational rows the claim asserts. -/
theorem C3_counterexample :
    (exResultsC3.getD 0 default).2.perContainer.length = 1 ∧
    ((NewMenu exResultsC3 2).items.countP fun i => i.checkable) = 1 ∧
    ((NewMenu exResultsC3 2).items.countP fun i => !i.checkable) = 1 := by
  decide

/-- C3 (amended): for every verbosity at which the resource is kept and
every resource whose payload list has length N ≥ 1 (each payload naming a
container, which is what makes a row selectable), row construction
produces exactly N selectable rows for that resource, and zero
informational rows when the resource has no error text — exactly one (the
error row) when it has error text.  The final conjunct ties the
per-resource row list to the rows of the constructed menu. -/
theorem C3_rows_per_resource (v : Nat) (rid : String) (r : ControllerResult)
    (hkeep : keepResult v r = true)
    (hcont : ∀ u ∈ r.perContainer, u.container ≠ "")
    (hN : 0 < r.perContainer.length) :
    ((rowsForResult v rid r).countP fun i => i.checkable) = r.perContainer.length ∧
    ((rowsForResult v rid r).countP fun i => !i.checkable)
      = (if r.error = "" then 0 else 1) ∧
    ∀ results : Result,
      (NewMenu results v).items = results.flatMap fun p => rowsForResult v p.1 p.2 := by
  exact ⟨rowsFor_checkable_count v rid r hkeep hcont hN,
    rowsFor_info_count v rid r hkeep hcont hN,
    fun results => NewMenu_items results v⟩

/-- C3 witness: the amended counts at a concrete kept resource with one
payload and error text. -/
theorem C3_rows_per_resource_witness :
    keepResult 2 ⟨ControllerUpdateStatus.failed, "boom", [⟨"app", "1.0", "2.0"⟩]⟩ = true ∧
    ((rowsForResult 2 "a"
        ⟨ControllerUpdateStatus.failed, "boom", [⟨"app", "1.0", "2.0"⟩]⟩).countP
          fun i => i.checkable) = 1 ∧
    ((rowsForResult 2 "a"
        ⟨ControllerUpdateStatus.failed, "boom", [⟨"app", "1.0", "2.0"⟩]⟩).countP
          fun i => !i.checkable)
      = (if ("boom" : String) = "" then 0 else 1) :=
  ⟨by decide,
   (C3_rows_per_resource 2 "a" ⟨ControllerUpdateStatus.failed, "boom", [⟨"app", "1.0", "2.0"⟩]⟩
     (by decide) (by decide) (by decide)).1,
   (C3_rows_per_resource 2 "a" ⟨ControllerUpdateStatus.failed, "boom", [⟨"app", "1.0", "2.0"⟩]⟩
     (by decide) (by decide) (by decide)).2.1⟩

/-- C4 counterexample: at width 2, writing the two-character line "ab"
increases the tracked count by 2 — not by `max 1 (ceil (2 / 2)) = 1` as the
claim has it.  (`(2 + 2 - 1) / 2` is `ceil (2 / 2)` in integer arithmetic.) -/
theorem C4_counterexample :
    ("ab" : String).utf8ByteSize = 2 ∧
    ((ClearableLineWriter.mk 0 2).Writeln "ab").lines = 2 ∧
    ((ClearableLineWriter.mk 0 2).Writeln "ab").lines
      ≠ (ClearableLineWriter.mk 0 2).lines + max 1 ((2 + 2 - 1) / 2) := by
  decide

/-- C4 (amended): for every line of byte length L and width w ≥ 1,
`Writeln` increases the tracked count by exactly `L / w + 1` (floor
division) — the byte count of the appended newline is included before
dividing.  This equals `max 1 (ceil (L / w))` except when L is a positive
multiple of w, where it is one more. -/
theorem C4_writeln_lines (c : ClearableLineWriter) (line : String) (h : 0 < c.width) :
    (c.Writeln line).lines = c.lines + (line.utf8ByteSize / c.width + 1) := by
  unfold ClearableLineWriter.Writeln
  simp only [utf8ByteSize_append, utf8ByteSize_newline, Nat.add_sub_cancel]

/-- C4 witness: the amended count at a concrete writer and line. -/
theorem C4_writeln_lines_witness :
    0 < (ClearableLineWriter.mk 0 2).width ∧
    ((ClearableLineWriter.mk 0 2).Writeln "abc").lines
      = (ClearableLineWriter.mk 0 2).lines + (("abc" : String).utf8ByteSize / 2 + 1) :=
  ⟨by decide, C4_writeln_lines (ClearableLineWriter.mk 0 2) "abc" (by decide)⟩

/-- C5: cursor navigation is cyclic.  For every menu with a non-empty
selectable set, one forward move lands on `(cursor + 1) % selectableCount`,
one backward move on `(cursor + selectableCount - 1) % selectableCount`,
and from cursor 0, `selectableCount` consecutive forward (resp. backward)
moves return the cursor to 0. -/
theorem C5_cursor_cyclic (m : Menu) (h : 0 < m.selectable) :
    m.cursorDown.cursor = (m.cursor + 1) % m.selectable ∧
    m.cursorUp.cursor = (m.cursor + m.selectable - 1) % m.selectable ∧
    (m.cursor = 0 →
      (Menu.cursorDown^[m.selectable] m).cursor = 0 ∧
      (Menu.cursorUp^[m.selectable] m).cursor = 0) := by
  refine ⟨rfl, rfl, fun hc => ⟨?_, ?_⟩⟩
  · have hiter := (iterate_cursorDown m (by omega) m.selectable).1
    rw [hiter, hc, Nat.zero_add, Nat.mod_self]
  · have hiter := (iterate_cursorUp m (by omega) m.selectable).1
    rw [hiter, hc, Nat.zero_add, Nat.mul_mod_right]

/-- C5 witness: the cyclic moves on the concrete two-row menu `wMenu`. -/
theorem C5_cursor_cyclic_witness :
    0 < wMenu.selectable ∧ wMenu.cursor = 0 ∧
    wMenu.cursorDown.cursor = (wMenu.cursor + 1) % wMenu.selectable ∧
    wMenu.cursorUp.cursor = (wMenu.cursor + wMenu.selectable - 1) % wMenu.selectable ∧
    (Menu.cursorDown^[wMenu.selectable] wMenu).cursor = 0 ∧
    (Menu.cursorUp^[wMenu.selectable] wMenu).cursor = 0 :=
  ⟨by decide, by decide,
   (C5_cursor_cyclic wMenu (by decide)).1,
   (C5_cursor_cyclic wMenu (by decide)).2.1,
   ((C5_cursor_cyclic wMenu (by decide)).2.2 (by decide)).1,
   ((C5_cursor_cyclic wMenu (by decide)).2.2 (by decide)).2⟩

/-- C6: when `selectableCount = 0`, `Run` returns the NoChanges condition
synchronously: the outcome is `noChanges`, the whole input is still unread,
and the returned mapping is empty at every key. -/
theorem C6_no_changes_before_input (m : Menu) (keys : List KeyEvent)
    (h : m.selectable = 0) :
    (m.Run keys).2.1 = RunOutcome.noChanges ∧
    (m.Run keys).2.2 = keys ∧
    ∀ s, (m.Run keys).1 s = [] := by
  unfold Menu.Run
  simp [h]

/-- C6 witness: the empty result set gives a menu with no selectable rows;
`Run` refuses without consuming the pending keypress. -/
theorem C6_no_changes_witness :
    (NewMenu [] 0).selectable = 0 ∧
    ((NewMenu [] 0).Run [⟨106, 0⟩]).2.1 = RunOutcome.noChanges ∧
    ((NewMenu [] 0).Run [⟨106, 0⟩]).2.2 = [⟨106, 0⟩] ∧
    ((NewMenu [] 0).Run [⟨106, 0⟩]).1 "a" = [] :=
  ⟨by decide,
   (C6_no_changes_before_input (NewMenu [] 0) [⟨106, 0⟩] (by decide)).1,
   (C6_no_changes_before_input (NewMenu [] 0) [⟨106, 0⟩] (by decide)).2.1,
   (C6_no_changes_before_input (NewMenu [] 0) [⟨106, 0⟩] (by decide)).2.2 "a"⟩

/-- C7: the rows a resource contributes are monotone in the verbosity:
for v ≤ w the rows produced at v are a sublist of (here: equal to or
dropped from) the rows produced at w, so the row count is non-decreasing.
The final conjunct ties the per-resource row list to the constructed
menu. -/
theorem C7_verbosity_monotone (v w : Nat) (hvw : v ≤ w) (rid : String)
    (r : ControllerResult) :
    (rowsForResult v rid r).Sublist (rowsForResult w rid r) ∧
    (rowsForResult v rid r).length ≤ (rowsForResult w rid r).length ∧
    ∀ (results : Result) (u : Nat),
      (NewMenu results u).items = results.flatMap fun p => rowsForResult u p.1 p.2 := by
  have hsub : (rowsForResult v rid r).Sublist (rowsForResult w rid r) := by
    unfold rowsForResult
    exact (rawRowsFor_mono v w hvw rid r).map markItem
  exact ⟨hsub, hsub.length_le, fun results u => NewMenu_items results u⟩

/-- C7 witness: a skipped resource contributes no rows at verbosity 0 and
one row at verbosity 2. -/
theorem C7_verbosity_monotone_witness :
    (0 : Nat) ≤ 2 ∧
    (rowsForResult 0 "a" ⟨ControllerUpdateStatus.skipped, "", []⟩).length = 0 ∧
    (rowsForResult 2 "a" ⟨ControllerUpdateStatus.skipped, "", []⟩).length = 1 ∧
    (rowsForResult 0 "a" ⟨ControllerUpdateStatus.skipped, "", []⟩).length
      ≤ (rowsForResult 2 "a" ⟨ControllerUpdateStatus.skipped, "", []⟩).length :=
  ⟨by decide, by decide, by decide,
   (C7_verbosity_monotone 0 2 (by decide) "a"
     ⟨ControllerUpdateStatus.skipped, "", []⟩).2.1⟩

/-- C8: confirming without any toggle returns, under each resource's key,
exactly that resource's payloads (the container updates that name a
container — which is what makes a row selectable), in original order; in
particular, when every payload names a container the whole payload list is
returned verbatim. -/
theorem C8_confirm_no_toggles (results : Result) (v : Nat) (rid : String)
    (r : ControllerResult)
    (hnd : (results.map Prod.fst).Nodup)
    (hmem : (rid, r) ∈ results)
    (hk : keepResult v r = true)
    (hsel : 0 < (NewMenu results v).selectable) :
    ((NewMenu results v).Run [⟨13, 0⟩]).2.1 = RunOutcome.confirmed ∧
    ((NewMenu results v).Run [⟨13, 0⟩]).1 rid
      = r.perContainer.filter (fun u => u.container != "") ∧
    ((∀ u ∈ r.perContainer, u.container ≠ "") →
      ((NewMenu results v).Run [⟨13, 0⟩]).1 rid = r.perContainer) := by
  have h0 : ¬ (NewMenu results v).selectable = 0 := by omega
  have hmain : (NewMenu results v).projectSpecs rid
      = r.perContainer.filter (fun u => u.container != "") := by
    rw [projectSpecs_eq, NewMenu_items, List.filter_flatMap,
      filter_flatMap_unique v rid r results hnd hmem]
    exact filter_checked_rowsForResult v rid r hk
  rw [run_enter _ h0]
  refine ⟨rfl, hmain, fun hcont => ?_⟩
  show (NewMenu results v).projectSpecs rid = r.perContainer
  rw [hmain]
  apply List.filter_eq_self.2
  intro u hu
  simpa using hcont u hu

/-- C8 witness: confirming `wMenu` immediately returns both payloads of
its single resource, in order. -/
theorem C8_confirm_no_toggles_witness :
    ((NewMenu wResults 0).Run [⟨13, 0⟩]).2.1 = RunOutcome.confirmed ∧
    ((NewMenu wResults 0).Run [⟨13, 0⟩]).1 "default:deployment/helloworld"
      = [⟨"app", "1.0", "2.0"⟩, ⟨"sidecar", "1.0", "1.1"⟩] :=
  ⟨(C8_confirm_no_toggles wResults 0 "default:deployment/helloworld"
      ⟨ControllerUpdateStatus.success, "",
        [⟨"app", "1.0", "2.0"⟩, ⟨"sidecar", "1.0", "1.1"⟩]⟩
      (by decide) (by decide) (by decide) (by decide)).1,
   (C8_confirm_no_toggles wResults 0 "default:deployment/helloworld"
      ⟨ControllerUpdateStatus.success, "",
        [⟨"app", "1.0", "2.0"⟩, ⟨"sidecar", "1.0", "1.1"⟩]⟩
      (by decide) (by decide) (by decide) (by decide)).2.2 (by decide)⟩

/-- C9: every row-list access of the loop stays in bounds: after
construction `selectable ≤ items.length` and the cursor starts at 0, and
for every key sequence (hence every reachable state) the cursor stays
below the selectable count, which stays at most the row count — so the
toggle's index `items[cursor]` never exceeds the list length. -/
theorem C9_in_bounds (results : Result) (v : Nat) (keys : List KeyEvent) :
    (NewMenu results v).selectable ≤ (NewMenu results v).items.length ∧
    (NewMenu results v).cursor = 0 ∧
    (0 < (NewMenu results v).selectable →
      ((NewMenu results v).runFrom keys).1.cursor
          < ((NewMenu results v).runFrom keys).1.selectable ∧
      ((NewMenu results v).runFrom keys).1.selectable
          ≤ ((NewMenu results v).runFrom keys).1.items.length ∧
      ((NewMenu results v).runFrom keys).1.cursor
          < ((NewMenu results v).runFrom keys).1.items.length) := by
  refine ⟨NewMenu_selectable_le results v, NewMenu_cursor results v, fun hsel => ?_⟩
  have hinv : MenuInv (NewMenu results v) := by
    constructor
    · rw [NewMenu_cursor]
      exact hsel
    · exact NewMenu_selectable_le results v
  have h := runFrom_inv keys _ hinv
  exact ⟨h.1, h.2, Nat.lt_of_lt_of_le h.1 h.2⟩

/-- C9 witness: the bounds hold on `wMenu` after a toggle and two moves. -/
theorem C9_in_bounds_witness :
    0 < (NewMenu wResults 0).selectable ∧
    ((NewMenu wResults 0).runFrom [⟨32, 0⟩, ⟨106, 0⟩, ⟨107, 0⟩]).1.cursor
      < ((NewMenu wResults 0).runFrom [⟨32, 0⟩, ⟨106, 0⟩, ⟨107, 0⟩]).1.items.length :=
  ⟨by decide,
   ((C9_in_bounds wResults 0 [⟨32, 0⟩, ⟨106, 0⟩, ⟨107, 0⟩]).2.2 (by decide)).2.2⟩

/-- C10: frame property — a navigation keypress changes only the cursor
(row list and selectable count are untouched), and a toggle keypress
changes only the `checked` flag of the single row it hits, leaving the
cursor, the selectable count, every other row, and the list length
unchanged. -/
theorem C10_frame (m : Menu) :
    (m.cursorDown.items = m.items ∧ m.cursorDown.selectable = m.selectable ∧
     m.cursorUp.items = m.items ∧ m.cursorUp.selectable = m.selectable) ∧
    (m.toggleSelected.cursor = m.cursor ∧
     m.toggleSelected.selectable = m.selectable ∧
     m.toggleSelected.items.length = m.items.length ∧
     (∀ j, j ≠ m.cursor → m.toggleSelected.items[j]? = m.items[j]?) ∧
     (m.cursor < m.items.length →
       m.toggleSelected.items[m.cursor]? =
         some { m.items.getD m.cursor default with
                  checked := !(m.items.getD m.cursor default).checked })) := by
  refine ⟨⟨rfl, rfl, rfl, rfl⟩, rfl, rfl, toggleSelected_length m, ?_, ?_⟩
  · intro j hj
    show (m.items.set m.cursor _)[j]? = m.items[j]?
    exact List.getElem?_set_ne (Ne.symm hj)
  · intro hlt
    show (m.items.set m.cursor _)[m.cursor]? = _
    rw [List.getElem?_set_self hlt]

/-- C10 witness: the frame property on the concrete menu `wMenu`. -/
theorem C10_frame_witness :
    wMenu.cursorDown.items = wMenu.items ∧
    wMenu.toggleSelected.items[1]? = wMenu.items[1]? ∧
    wMenu.toggleSelected.items[wMenu.cursor]? =
      some { wMenu.items.getD wMenu.cursor default with
               checked := !(wMenu.items.getD wMenu.cursor default).checked } :=
  ⟨(C10_frame wMenu).1.1,
   (C10_frame wMenu).2.2.2.2.1 1 (by decide),
   (C10_frame wMenu).2.2.2.2.2 (by decide)⟩

end FluxMenu
